import Mathlib

/-!
Shallow embedding of `src/parser/pipelines.rs` from the ion shell repository:
the `PipelineIterator` (line trimmer) and the `collect` function (job splitter
plus redirection parser), together with theorems checking the specification's
claims about them.

The Rust code keeps its scan state in a `u8` bit register with constants
`BACKSLASH = 1`, `SINGLE_QUOTE = 2`, `DOUBLE_QUOTE = 4`, `WHITESPACE = 8`,
`PROCESS_ONE = 64`, `PROCESS_TWO = 128`.  Bits 16 and 32 are never set by any
statement in the file.  We embed the register as a record of six booleans,
one per bit that is ever set, and translate each mask test literally:

  * `flags & BACKSLASH != 0`                  ↦ `fl.backslash`
  * `flags & PROCESS_VAL == 0` (mask 214 = SQ+DQ+16+P1+P2, bit 16 dead)
                                              ↦ none of SQ, DQ, P1, P2 set
  * `flags & PROCESS_VAL == PROCESS_ONE`      ↦ P1 set, SQ, DQ, P2 clear
  * `flags & PROCESS_VAL == PROCESS_TWO`      ↦ P2 set, SQ, DQ, P1 clear
  * `flags & IS_VALID == 0` (mask 246 = SQ+DQ+16+32+P1+P2, bits 16/32 dead)
                                              ↦ none of SQ, DQ, P1, P2 set
  * `flags & (255 ^ BACKSLASH) == 0`          ↦ none of SQ, DQ, WS, P1, P2 set
  * `flags >> 6 != 2`                         ↦ not (P2 set and P1 clear)

Text is embedded as `List Char`; the Rust code iterates over bytes of a
`&str`, and every byte the scanner dispatches on is ASCII, so the per-scalar
embedding makes the same decisions and emits the same strings.
-/

set_option maxRecDepth 8000

namespace IonShell

/-- The quote/escape/substitution flag register (one field per used bit). -/
structure Flags where
  backslash : Bool
  singleQuote : Bool
  doubleQuote : Bool
  whitespace : Bool
  processOne : Bool
  processTwo : Bool
deriving DecidableEq, Repr

/-- The all-clear register, `0u8`. -/
def Flags.init : Flags :=
  ⟨false, false, false, false, false, false⟩

/-- `flags & PROCESS_VAL == 0` (bit 16 of the mask is never set). -/
def pvalZero (fl : Flags) : Bool :=
  !fl.singleQuote && !fl.doubleQuote && !fl.processOne && !fl.processTwo

/-- `flags & PROCESS_VAL == PROCESS_ONE`. -/
def pvalEqOne (fl : Flags) : Bool :=
  fl.processOne && !fl.singleQuote && !fl.doubleQuote && !fl.processTwo

/-- `flags & PROCESS_VAL == PROCESS_TWO`. -/
def pvalEqTwo (fl : Flags) : Bool :=
  fl.processTwo && !fl.singleQuote && !fl.doubleQuote && !fl.processOne

/-- `flags & IS_VALID == 0` (bits 16 and 32 of the mask are never set). -/
def isValidZero (fl : Flags) : Bool :=
  !fl.singleQuote && !fl.doubleQuote && !fl.processOne && !fl.processTwo

/-- `flags & (255 ^ BACKSLASH) == 0`, the guard on the `|` arm. -/
def pipeGuard (fl : Flags) : Bool :=
  !fl.singleQuote && !fl.doubleQuote && !fl.whitespace && !fl.processOne && !fl.processTwo

/-- `flags >> 6 != 2`, the guard on the flag-clearing default arm. -/
def shiftGuard (fl : Flags) : Bool :=
  !(fl.processTwo && !fl.processOne)

/-- The single-quote character `'` (byte 39). -/
def quoteS : Char := Char.ofNat 39

/-- The double-quote character (byte 34). -/
def quoteD : Char := Char.ofNat 34

/-- A file redirection: target path text and append mode. -/
structure Redirection where
  file : List Char
  append : Bool
deriving DecidableEq, Repr

/-- One command invocation: its argument strings and background flag. -/
structure Job where
  args : List (List Char)
  background : Bool
deriving DecidableEq, Repr

/-- A pipeline: jobs plus optional stdin/stdout redirections. -/
structure Pipeline where
  jobs : List Job
  stdin : Option Redirection
  stdout : Option Redirection
deriving DecidableEq, Repr

/--
The scan loop of `PipelineIterator::next` (pipelines.rs lines 40-62).
State: remaining characters, flag register, `index_start`, `index_end`,
`white_pos`.  Every iteration consumes one character; the function returns
the final `index_start`, the only loop output the trailing code reads.
-/
def iterLoop : List Char → Flags → Nat → Nat → Nat → Nat
  | [], _, istart, _, _ => istart
  | c :: rest, fl, istart, iend, wpos =>
    if fl.backslash then
      iterLoop rest { fl with backslash := !fl.backslash, whitespace := false } istart (iend + 1) 0
    else if c == '\\' then
      iterLoop rest { fl with backslash := true, whitespace := false } istart (iend + 1) 0
    else if c == quoteS && (!fl.processTwo && !fl.doubleQuote) then
      iterLoop rest { fl with singleQuote := !fl.singleQuote, whitespace := false } istart (iend + 1) 0
    else if c == quoteD && (!fl.processTwo && !fl.singleQuote) then
      iterLoop rest { fl with doubleQuote := !fl.doubleQuote, whitespace := false } istart (iend + 1) 0
    else if c == '$' && pvalZero fl then
      iterLoop rest { fl with processOne := true, whitespace := false } istart (iend + 1) 0
    else if c == '(' && pvalEqOne fl then
      iterLoop rest
        { fl with processOne := !fl.processOne, processTwo := !fl.processTwo, whitespace := false }
        istart (iend + 1) 0
    else if c == ')' && pvalEqTwo fl then
      iterLoop rest { fl with processTwo := false, whitespace := false } istart (iend + 1) 0
    else if (c == ' ' || c == '\t') && isValidZero fl then
      iterLoop rest { fl with whitespace := true }
        (if istart == iend then istart + 1 else istart) (iend + 1)
        (if wpos == 0 then iend else wpos)
    else if shiftGuard fl then
      iterLoop rest { fl with processOne := false, processTwo := false, whitespace := false }
        istart (iend + 1) 0
    else
      iterLoop rest { fl with whitespace := false } istart (iend + 1) 0

/--
`PipelineIterator::next` from a fresh iterator (pipelines.rs lines 39-75):
run the scan loop over the whole input, then yield the suffix from the final
`index_start` when it holds a character other than space, LF, CR, or tab.
`collect` only ever observes this first yield: the loop always advances
`index_end` to the input length, and a successful yield moves `index_start`
past the end, so every later `next` call returns `None`.
-/
def pipelineFirst (s : List Char) : Option (List Char) :=
  let istart := iterLoop s Flags.init 0 0 0
  if s.length > istart then
    let command := s.drop istart
    if command.any (fun x => x != ' ' && x != '\n' && x != '\r' && x != '\t') then
      some command
    else
      none
  else
    none

/-- `args[arg_start..index]`: the slice of `args` from `a` (inclusive) to `b`
(exclusive). -/
def slice (args : List Char) (a b : Nat) : List Char :=
  (args.take b).drop a

/--
The job pushed by the `job_found!` macro (pipelines.rs lines 115-128):
a job of the sole pending slice when `arguments` is empty, otherwise the
accumulated `arguments`, extended by the pending slice when the previous
character is not a space.  (The macro indexes `args[index-1]` only in the
non-empty branch, where `index ≥ 1`; the `getD` default is unreachable.)
-/
def jobFoundJob (args : List Char) (argStart index : Nat) (arguments : List (List Char))
    (background : Bool) : Job :=
  if arguments.isEmpty then
    ⟨[slice args argStart index], background⟩
  else if args.getD (index - 1) (Char.ofNat 0) != ' ' then
    ⟨arguments ++ [slice args argStart index], background⟩
  else
    ⟨arguments, background⟩

/--
The code after the `'outer` loop (pipelines.rs lines 280-288): push the
pending slice when `arg_start != index`, wrap a remaining non-empty argument
list into a final non-background job, and emit the pipeline; the error slot
value recorded before the break is passed through.
-/
def finalize (args : List Char) (argStart index : Nat) (arguments : List (List Char))
    (jobs : List Job) (inFile outFile : Option Redirection) (err : Option String) :
    Option String × Pipeline :=
  let arguments' := if argStart != index then arguments ++ [slice args argStart index] else arguments
  let jobs' := if !arguments'.isEmpty then jobs ++ [⟨arguments', false⟩] else jobs
  (err, ⟨jobs', inFile, outFile⟩)

/-- Error text written for a missing output file (also hard-coded inside the
`redir_check!` macro, which is invoked for the stdin check as well). -/
def stdoutMsg : String := "missing standard output file argument after '>'"

/-- Error text written for a `>` met right after `<` with no filename yet. -/
def stdinMsg : String := "missing standard input file argument after '<'"

/--
The control point of the `'outer` loop.  `normal` is `RedirMode::False`;
`stdoutEntry` is the head of the `Stdout | StdoutAppend` arm (about to
consume the character after `>`; the flag records `mode == StdoutAppend`);
`stdoutFile` and `stdinFile` are the filename-accumulation `while` loops of
those arms, carrying their loop-local `*_file` buffer and `found_file` flag.
-/
inductive ScanMode where
  | normal : ScanMode
  | stdoutEntry : Bool → ScanMode
  | stdoutFile : Bool → List Char → Bool → ScanMode
  | stdinFile : List Char → Bool → ScanMode
deriving DecidableEq, Repr

/--
Per-candidate scanner state for the `'outer` loop of `collect`
(pipelines.rs lines 84-128): the current redirection mode, the flag
register, `arg_start`, `index`, the `arguments` accumulator, the `jobs`
list, and the `in_file`/`out_file` slots.  `index` only advances in
`normal` mode, exactly as in the source, where the redirection arms
consume `args_iter` without touching `index`.
-/
structure ScanState where
  mode : ScanMode
  fl : Flags
  argStart : Nat
  index : Nat
  arguments : List (List Char)
  jobs : List Job
  inFile : Option Redirection
  outFile : Option Redirection
deriving DecidableEq, Repr

/--
What one character of the candidate does to the `'outer` loop: either the
scan continues with an updated state (a fall-through to the next
`args_iter.next()`, or a `continue 'outer`), or the loop breaks
(`break 'outer`), carrying the state at the break and the error recorded,
if any.
-/
inductive Step where
  | go : ScanState → Step
  | stop : ScanState → Option String → Step
deriving DecidableEq, Repr

/--
One character in `RedirMode::False` (pipelines.rs lines 133-156): the match
arms in source order, each followed by the trailing `index += 1`; the `>`
and `<` arms are the `redir_found!` macro (line 112), the `|` and `&` arms
the `job_found!` macro.  Arguments: the flag register, `arg_start`, `index`,
the `arguments` accumulator, the `jobs` list, and the redirection slots.
-/
def normalStep (args : List Char) (c : Char) (fl : Flags) (argStart index : Nat)
    (arguments : List (List Char)) (jobs : List Job)
    (inFile outFile : Option Redirection) : Step :=
  if fl.backslash then
    .go ⟨.normal, { fl with backslash := !fl.backslash }, argStart, index + 1,
      arguments, jobs, inFile, outFile⟩
  else if c == '\\' then
    .go ⟨.normal, { fl with backslash := !fl.backslash }, argStart, index + 1,
      arguments, jobs, inFile, outFile⟩
  else if c == '$' && pvalZero fl then
    .go ⟨.normal, { fl with processOne := true }, argStart, index + 1,
      arguments, jobs, inFile, outFile⟩
  else if c == '(' && pvalEqOne fl then
    .go ⟨.normal, { fl with processOne := !fl.processOne, processTwo := !fl.processTwo },
      argStart, index + 1, arguments, jobs, inFile, outFile⟩
  else if c == ')' && pvalEqTwo fl then
    .go ⟨.normal, { fl with processTwo := false }, argStart, index + 1,
      arguments, jobs, inFile, outFile⟩
  else if c == quoteS then
    .go ⟨.normal, { fl with singleQuote := !fl.singleQuote }, argStart, index + 1,
      arguments, jobs, inFile, outFile⟩
  else if c == quoteD then
    .go ⟨.normal, { fl with doubleQuote := !fl.doubleQuote }, argStart, index + 1,
      arguments, jobs, inFile, outFile⟩
  else if (c == ' ' || c == '\t') && isValidZero fl then
    if argStart != index then
      .go ⟨.normal, fl, index + 1, index + 1,
        arguments ++ [slice args argStart index], jobs, inFile, outFile⟩
    else
      .go ⟨.normal, fl, argStart + 1, index + 1, arguments, jobs, inFile, outFile⟩
  else if c == '|' && pipeGuard fl then
    .go ⟨.normal, fl, index + 1, index + 1, [],
      jobs ++ [jobFoundJob args argStart index arguments false], inFile, outFile⟩
  else if c == '&' && isValidZero fl then
    .go ⟨.normal, fl, index + 1, index + 1, [],
      jobs ++ [jobFoundJob args argStart index arguments true], inFile, outFile⟩
  else if c == '>' && isValidZero fl then
    .go ⟨.stdoutEntry false, fl, index + 1, index + 1, arguments, jobs, inFile, outFile⟩
  else if c == '<' && isValidZero fl then
    .go ⟨.stdinFile [] false, fl, index + 1, index + 1, arguments, jobs, inFile, outFile⟩
  else if shiftGuard fl then
    .go ⟨.normal, { fl with processOne := false, processTwo := false }, argStart, index + 1,
      arguments, jobs, inFile, outFile⟩
  else
    .go ⟨.normal, fl, argStart, index + 1, arguments, jobs, inFile, outFile⟩

/--
One iteration of the stdout filename loop (pipelines.rs lines 171-216):
once a file was found, only `<` matters (lines 172-180); before that, the
match of lines 182-214 accumulates the filename, dropping escape
backslashes, or ends it at space/tab/`|`, or cross-transitions on `<`.
-/
def stdoutFileStep (args : List Char) (c : Char) (append : Bool) (file : List Char)
    (found : Bool) (fl : Flags) (argStart index : Nat) (arguments : List (List Char))
    (jobs : List Job) (inFile outFile : Option Redirection) : Step :=
  if found then
    if c == '<' then
      if inFile.isSome then
        .stop ⟨.stdoutFile append file found, fl, argStart, index, arguments, jobs,
          inFile, outFile⟩ none
      else
        .go ⟨.stdinFile [] false, fl, argStart, index, arguments, jobs, inFile, outFile⟩
    else
      .go ⟨.stdoutFile append file found, fl, argStart, index, arguments, jobs, inFile, outFile⟩
  else if fl.backslash then
    .go ⟨.stdoutFile append (file ++ [c]) false, { fl with backslash := !fl.backslash },
      argStart, index, arguments, jobs, inFile, outFile⟩
  else if c == '\\' then
    .go ⟨.stdoutFile append file false, { fl with backslash := !fl.backslash },
      argStart, index, arguments, jobs, inFile, outFile⟩
  else if (c == ' ' || c == '\t' || c == '|') && file.isEmpty then
    .go ⟨.stdoutFile append file false, fl, argStart, index, arguments, jobs, inFile, outFile⟩
  else if c == ' ' || c == '\t' || c == '|' then
    .go ⟨.stdoutFile append file true, fl, argStart, index, arguments, jobs, inFile,
      some ⟨file, append⟩⟩
  else if c == '<' && file.isEmpty then
    .stop ⟨.stdoutFile append file false, fl, argStart, index, arguments, jobs,
      inFile, outFile⟩ (some stdoutMsg)
  else if c == '<' then
    if inFile.isSome then
      .stop ⟨.stdoutFile append file false, fl, argStart, index, arguments, jobs,
        inFile, some ⟨file, append⟩⟩ none
    else
      .go ⟨.stdinFile [] false, fl, argStart, index, arguments, jobs, inFile,
        some ⟨file, append⟩⟩
  else
    .go ⟨.stdoutFile append (file ++ [c]) false, fl, argStart, index, arguments, jobs,
      inFile, outFile⟩

/--
One iteration of the stdin filename loop (pipelines.rs lines 226-271):
symmetric to the stdout loop, except that the cross-transition of the
not-yet-found `>` arm re-enters `RedirMode::Stdin` (line 264) rather than
`Stdout`, exactly as in the source.
-/
def stdinFileStep (args : List Char) (c : Char) (file : List Char) (found : Bool)
    (fl : Flags) (argStart index : Nat) (arguments : List (List Char)) (jobs : List Job)
    (inFile outFile : Option Redirection) : Step :=
  if found then
    if c == '>' then
      if outFile.isSome then
        .stop ⟨.stdinFile file found, fl, argStart, index, arguments, jobs,
          inFile, outFile⟩ none
      else
        .go ⟨.stdoutEntry false, fl, argStart, index, arguments, jobs, inFile, outFile⟩
    else
      .go ⟨.stdinFile file found, fl, argStart, index, arguments, jobs, inFile, outFile⟩
  else if fl.backslash then
    .go ⟨.stdinFile (file ++ [c]) false, { fl with backslash := !fl.backslash },
      argStart, index, arguments, jobs, inFile, outFile⟩
  else if c == '\\' then
    .go ⟨.stdinFile file false, { fl with backslash := !fl.backslash },
      argStart, index, arguments, jobs, inFile, outFile⟩
  else if (c == ' ' || c == '\t' || c == '|') && file.isEmpty then
    .go ⟨.stdinFile file false, fl, argStart, index, arguments, jobs, inFile, outFile⟩
  else if c == ' ' || c == '\t' || c == '|' then
    .go ⟨.stdinFile file true, fl, argStart, index, arguments, jobs,
      some ⟨file, false⟩, outFile⟩
  else if c == '>' && file.isEmpty then
    .stop ⟨.stdinFile file false, fl, argStart, index, arguments, jobs,
      inFile, outFile⟩ (some stdinMsg)
  else if c == '>' then
    if outFile.isSome then
      .stop ⟨.stdinFile file false, fl, argStart, index, arguments, jobs,
        some ⟨file, false⟩, outFile⟩ none
    else
      .go ⟨.stdinFile [] false, fl, argStart, index, arguments, jobs,
        some ⟨file, false⟩, outFile⟩
  else
    .go ⟨.stdinFile (file ++ [c]) false, fl, argStart, index, arguments, jobs,
      inFile, outFile⟩

/--
One character of the `'outer` loop of `collect` (pipelines.rs lines
130-277), dispatching on the mode exactly as the source dispatches on
`RedirMode`.  The `stdoutEntry` arm is the peek of lines 161-167: the
character is consumed; if it is `>` the mode becomes append; either way
the filename loop starts with an empty buffer on the following character.
-/
def stepChar (args : List Char) (c : Char) (st : ScanState) : Step :=
  match st.mode with
  | .normal =>
    normalStep args c st.fl st.argStart st.index st.arguments st.jobs st.inFile st.outFile
  | .stdoutEntry append =>
    .go ⟨.stdoutFile (if c == '>' then true else append) [] false, st.fl, st.argStart,
      st.index, st.arguments, st.jobs, st.inFile, st.outFile⟩
  | .stdoutFile append file found =>
    stdoutFileStep args c append file found st.fl st.argStart st.index st.arguments st.jobs
      st.inFile st.outFile
  | .stdinFile file found =>
    stdinFileStep args c file found st.fl st.argStart st.index st.arguments st.jobs
      st.inFile st.outFile

/--
End of the candidate (`args_iter.next()` returned `None`): in `normal`
mode the `while let` of line 132 just ends and line 158 breaks; the
`stdoutEntry` peek records the missing-file error (lines 163-166); the two
filename loops fall through to their `redir_check!` invocation
(lines 218 and 273 -- the macro writes the `'>'` message in both).
Afterwards the code after the loop (lines 280-288) runs via `finalize`.
-/
def eofStep (args : List Char) (st : ScanState) : Option String × Pipeline :=
  match st.mode with
  | .normal =>
    finalize args st.argStart st.index st.arguments st.jobs st.inFile st.outFile none
  | .stdoutEntry _ =>
    finalize args st.argStart st.index st.arguments st.jobs st.inFile st.outFile (some stdoutMsg)
  | .stdoutFile append file _ =>
    if st.outFile.isNone then
      if file.isEmpty then
        finalize args st.argStart st.index st.arguments st.jobs st.inFile st.outFile
          (some stdoutMsg)
      else
        finalize args st.argStart st.index st.arguments st.jobs st.inFile (some ⟨file, append⟩)
          none
    else
      finalize args st.argStart st.index st.arguments st.jobs st.inFile st.outFile none
  | .stdinFile file _ =>
    if st.inFile.isNone then
      if file.isEmpty then
        finalize args st.argStart st.index st.arguments st.jobs st.inFile st.outFile
          (some stdoutMsg)
      else
        finalize args st.argStart st.index st.arguments st.jobs (some ⟨file, false⟩) st.outFile
          none
    else
      finalize args st.argStart st.index st.arguments st.jobs st.inFile st.outFile none

/--
The `'outer` loop of `collect` over one candidate: feed the characters of
the candidate one at a time into `stepChar` until the input ends or the
loop breaks, then run the code after the loop.
-/
def scan (args : List Char) : List Char → ScanState → Option String × Pipeline
  | [], st => eofStep args st
  | c :: r, st =>
    match stepChar args c st with
    | .go st' => scan args r st'
    | .stop st' err =>
      finalize args st'.argStart st'.index st'.arguments st'.jobs st'.inFile st'.outFile err

/-- The fresh per-candidate state of pipelines.rs lines 84-92. -/
def ScanState.init : ScanState :=
  ⟨.normal, Flags.init, 0, 0, [], [], none, none⟩

/-- Process one trimmed candidate: the body of `collect`'s `for` loop. -/
def splitPipeline (args : List Char) : Option String × Pipeline :=
  scan args args ScanState.init

/--
`collect` (pipelines.rs lines 82-290): run the iterator over the command (it
yields at most one candidate), split that candidate, append the resulting
pipeline to the accumulator, and overwrite the error slot when an error was
recorded.
-/
def collect (pipelines : List Pipeline) (possibleError : Option String)
    (command : List Char) : List Pipeline × Option String :=
  match pipelineFirst command with
  | none => (pipelines, possibleError)
  | some cand =>
    match splitPipeline cand with
    | (none, p) => (pipelines ++ [p], possibleError)
    | (some e, p) => (pipelines ++ [p], some e)

/-- The state a `Step` carries (the loop variables after the character). -/
def Step.state : Step → ScanState
  | .go st => st
  | .stop st _ => st

/-- `t` occurs verbatim (as a contiguous run of characters) inside `cand`. -/
def VerbatimIn (t cand : List Char) : Prop :=
  ∃ u v, cand = u ++ t ++ v

/-- Every slice of a list occurs verbatim in it. -/
theorem slice_verbatim (args : List Char) (a b : Nat) :
    VerbatimIn (slice args a b) args := by
  have h : args.take b = (args.take b).take a ++ slice args a b := by
    rw [slice, List.take_append_drop]
  refine ⟨(args.take b).take a, args.drop b, ?_⟩
  calc args = args.take b ++ args.drop b := (List.take_append_drop b args).symm
    _ = ((args.take b).take a ++ slice args a b) ++ args.drop b := by rw [← h]

/-- Every argument of the job built by `job_found!` occurs verbatim in the
candidate, provided the accumulated arguments do. -/
theorem jobFoundJob_verbatim (args : List Char) (a b : Nat) (A : List (List Char)) (bg : Bool)
    (hA : ∀ x ∈ A, VerbatimIn x args) :
    ∀ x ∈ (jobFoundJob args a b A bg).args, VerbatimIn x args := by
  intro x hx
  simp only [jobFoundJob] at hx
  split_ifs at hx
  · rw [List.mem_singleton.1 hx]
    exact slice_verbatim args a b
  · rcases List.mem_append.1 hx with hx | hx
    · exact hA x hx
    · rw [List.mem_singleton.1 hx]
      exact slice_verbatim args a b
  · exact hA x hx

/--
How one scanner step relates the state before to the state after: the job
list only ever grows at the end, and if every accumulated argument and every
stored job argument occurs verbatim in the candidate before the step, the
same holds after it.
-/
def StateRel (args : List Char) (st st' : ScanState) : Prop :=
  (∃ t, st'.jobs = st.jobs ++ t) ∧
  ((∀ a ∈ st.arguments, VerbatimIn a args) →
   (∀ j ∈ st.jobs, ∀ a ∈ j.args, VerbatimIn a args) →
   (∀ a ∈ st'.arguments, VerbatimIn a args) ∧
   (∀ j ∈ st'.jobs, ∀ a ∈ j.args, VerbatimIn a args))

theorem stateRel_same {args : List Char} {st st' : ScanState}
    (hA : st'.arguments = st.arguments) (hJ : st'.jobs = st.jobs) :
    StateRel args st st' := by
  refine ⟨⟨[], by rw [hJ, List.append_nil]⟩, fun h1 h2 => ?_⟩
  rw [hA, hJ]
  exact ⟨h1, h2⟩

theorem stateRel_pushArg {args : List Char} {st st' : ScanState} (a b : Nat)
    (hA : st'.arguments = st.arguments ++ [slice args a b]) (hJ : st'.jobs = st.jobs) :
    StateRel args st st' := by
  refine ⟨⟨[], by rw [hJ, List.append_nil]⟩, fun h1 h2 => ?_⟩
  rw [hA, hJ]
  refine ⟨fun x hx => ?_, h2⟩
  rcases List.mem_append.1 hx with hx | hx
  · exact h1 x hx
  · rw [List.mem_singleton.1 hx]
    exact slice_verbatim args a b

theorem stateRel_jobFound {args : List Char} {st st' : ScanState} (a b : Nat) (bg : Bool)
    (hA : st'.arguments = []) (hJ : st'.jobs = st.jobs ++ [jobFoundJob args a b st.arguments bg]) :
    StateRel args st st' := by
  refine ⟨⟨_, hJ⟩, fun h1 h2 => ?_⟩
  rw [hA, hJ]
  refine ⟨fun x hx => absurd hx (List.not_mem_nil x), fun j hj => ?_⟩
  rcases List.mem_append.1 hj with hj | hj
  · exact h2 j hj
  · rw [List.mem_singleton.1 hj]
    exact jobFoundJob_verbatim args a b st.arguments bg h1

theorem normalStep_rel (args : List Char) (c : Char) (fl : Flags) (aS idx : Nat)
    (A : List (List Char)) (jobs : List Job) (IF OF : Option Redirection) :
    StateRel args ⟨.normal, fl, aS, idx, A, jobs, IF, OF⟩
      (normalStep args c fl aS idx A jobs IF OF).state := by
  rw [normalStep]
  cases h1 : fl.backslash
  case true => rw [if_pos rfl]; exact stateRel_same rfl rfl
  rw [if_neg Bool.false_ne_true]
  cases h2 : c == '\\'
  case true => rw [if_pos rfl]; exact stateRel_same rfl rfl
  rw [if_neg Bool.false_ne_true]
  cases h3 : c == '$' && pvalZero fl
  case true => rw [if_pos rfl]; exact stateRel_same rfl rfl
  rw [if_neg Bool.false_ne_true]
  cases h4 : c == '(' && pvalEqOne fl
  case true => rw [if_pos rfl]; exact stateRel_same rfl rfl
  rw [if_neg Bool.false_ne_true]
  cases h5 : c == ')' && pvalEqTwo fl
  case true => rw [if_pos rfl]; exact stateRel_same rfl rfl
  rw [if_neg Bool.false_ne_true]
  cases h6 : c == quoteS
  case true => rw [if_pos rfl]; exact stateRel_same rfl rfl
  rw [if_neg Bool.false_ne_true]
  cases h7 : c == quoteD
  case true => rw [if_pos rfl]; exact stateRel_same rfl rfl
  rw [if_neg Bool.false_ne_true]
  cases h8 : (c == ' ' || c == '\t') && isValidZero fl
  case true =>
    rw [if_pos rfl]
    cases h8b : aS != idx
    case true => rw [if_pos rfl]; exact stateRel_pushArg aS idx rfl rfl
    rw [if_neg Bool.false_ne_true]; exact stateRel_same rfl rfl
  rw [if_neg Bool.false_ne_true]
  cases h9 : c == '|' && pipeGuard fl
  case true => rw [if_pos rfl]; exact stateRel_jobFound aS idx false rfl rfl
  rw [if_neg Bool.false_ne_true]
  cases h10 : c == '&' && isValidZero fl
  case true => rw [if_pos rfl]; exact stateRel_jobFound aS idx true rfl rfl
  rw [if_neg Bool.false_ne_true]
  cases h11 : c == '>' && isValidZero fl
  case true => rw [if_pos rfl]; exact stateRel_same rfl rfl
  rw [if_neg Bool.false_ne_true]
  cases h12 : c == '<' && isValidZero fl
  case true => rw [if_pos rfl]; exact stateRel_same rfl rfl
  rw [if_neg Bool.false_ne_true]
  cases h13 : shiftGuard fl
  case true => rw [if_pos rfl]; exact stateRel_same rfl rfl
  rw [if_neg Bool.false_ne_true]
  exact stateRel_same rfl rfl


theorem stdoutFileStep_rel (args : List Char) (c : Char) (append : Bool) (file : List Char)
    (found : Bool) (fl : Flags) (aS idx : Nat) (A : List (List Char)) (jobs : List Job)
    (IF OF : Option Redirection) :
    StateRel args ⟨.stdoutFile append file found, fl, aS, idx, A, jobs, IF, OF⟩
      (stdoutFileStep args c append file found fl aS idx A jobs IF OF).state := by
  rw [stdoutFileStep]
  cases h1 : found
  case true =>
    rw [if_pos rfl]
    cases h2 : c == '<'
    case true =>
      rw [if_pos rfl]
      cases h3 : IF.isSome
      case true => rw [if_pos rfl]; exact stateRel_same rfl rfl
      rw [if_neg Bool.false_ne_true]; exact stateRel_same rfl rfl
    rw [if_neg Bool.false_ne_true]; exact stateRel_same rfl rfl
  rw [if_neg Bool.false_ne_true]
  cases h4 : fl.backslash
  case true => rw [if_pos rfl]; exact stateRel_same rfl rfl
  rw [if_neg Bool.false_ne_true]
  cases h5 : c == '\\'
  case true => rw [if_pos rfl]; exact stateRel_same rfl rfl
  rw [if_neg Bool.false_ne_true]
  cases h6 : (c == ' ' || c == '\t' || c == '|') && file.isEmpty
  case true => rw [if_pos rfl]; exact stateRel_same rfl rfl
  rw [if_neg Bool.false_ne_true]
  cases h7 : c == ' ' || c == '\t' || c == '|'
  case true => rw [if_pos rfl]; exact stateRel_same rfl rfl
  rw [if_neg Bool.false_ne_true]
  cases h8 : c == '<' && file.isEmpty
  case true => rw [if_pos rfl]; exact stateRel_same rfl rfl
  rw [if_neg Bool.false_ne_true]
  cases h9 : c == '<'
  case true =>
    rw [if_pos rfl]
    cases h10 : IF.isSome
    case true => rw [if_pos rfl]; exact stateRel_same rfl rfl
    rw [if_neg Bool.false_ne_true]; exact stateRel_same rfl rfl
  rw [if_neg Bool.false_ne_true]
  exact stateRel_same rfl rfl

theorem stdinFileStep_rel (args : List Char) (c : Char) (file : List Char)
    (found : Bool) (fl : Flags) (aS idx : Nat) (A : List (List Char)) (jobs : List Job)
    (IF OF : Option Redirection) :
    StateRel args ⟨.stdinFile file found, fl, aS, idx, A, jobs, IF, OF⟩
      (stdinFileStep args c file found fl aS idx A jobs IF OF).state := by
  rw [stdinFileStep]
  cases h1 : found
  case true =>
    rw [if_pos rfl]
    cases h2 : c == '>'
    case true =>
      rw [if_pos rfl]
      cases h3 : OF.isSome
      case true => rw [if_pos rfl]; exact stateRel_same rfl rfl
      rw [if_neg Bool.false_ne_true]; exact stateRel_same rfl rfl
    rw [if_neg Bool.false_ne_true]; exact stateRel_same rfl rfl
  rw [if_neg Bool.false_ne_true]
  cases h4 : fl.backslash
  case true => rw [if_pos rfl]; exact stateRel_same rfl rfl
  rw [if_neg Bool.false_ne_true]
  cases h5 : c == '\\'
  case true => rw [if_pos rfl]; exact stateRel_same rfl rfl
  rw [if_neg Bool.false_ne_true]
  cases h6 : (c == ' ' || c == '\t' || c == '|') && file.isEmpty
  case true => rw [if_pos rfl]; exact stateRel_same rfl rfl
  rw [if_neg Bool.false_ne_true]
  cases h7 : c == ' ' || c == '\t' || c == '|'
  case true => rw [if_pos rfl]; exact stateRel_same rfl rfl
  rw [if_neg Bool.false_ne_true]
  cases h8 : c == '>' && file.isEmpty
  case true => rw [if_pos rfl]; exact stateRel_same rfl rfl
  rw [if_neg Bool.false_ne_true]
  cases h9 : c == '>'
  case true =>
    rw [if_pos rfl]
    cases h10 : OF.isSome
    case true => rw [if_pos rfl]; exact stateRel_same rfl rfl
    rw [if_neg Bool.false_ne_true]; exact stateRel_same rfl rfl
  rw [if_neg Bool.false_ne_true]
  exact stateRel_same rfl rfl

theorem stepChar_rel (args : List Char) (c : Char) (st : ScanState) :
    StateRel args st (stepChar args c st).state := by
  obtain ⟨mode, fl, aS, idx, A, jobs, IF, OF⟩ := st
  cases mode with
  | normal => exact normalStep_rel args c fl aS idx A jobs IF OF
  | stdoutEntry append => exact stateRel_same rfl rfl
  | stdoutFile append file found => exact stdoutFileStep_rel args c append file found fl aS idx A jobs IF OF
  | stdinFile file found => exact stdinFileStep_rel args c file found fl aS idx A jobs IF OF


theorem finalize_jobs_succ (args : List Char) (aS i : Nat) (A : List (List Char))
    (jobs : List Job) (IF OF : Option Redirection) (e : Option String) :
    ∃ t, (finalize args aS i A jobs IF OF e).2.jobs = jobs ++ t := by
  simp only [finalize]
  split_ifs <;>
    first
      | exact ⟨_, rfl⟩
      | exact ⟨[], (List.append_nil jobs).symm⟩

theorem finalize_verbatim (args : List Char) (aS i : Nat) (A : List (List Char))
    (jobs : List Job) (IF OF : Option Redirection) (e : Option String)
    (hA : ∀ a ∈ A, VerbatimIn a args)
    (hJ : ∀ j ∈ jobs, ∀ a ∈ j.args, VerbatimIn a args) :
    ∀ j ∈ (finalize args aS i A jobs IF OF e).2.jobs, ∀ a ∈ j.args, VerbatimIn a args := by
  simp only [finalize]
  intro j hj
  split at hj
  · split at hj
    · rcases List.mem_append.1 hj with hj | hj
      · exact hJ j hj
      · rw [List.mem_singleton.1 hj]
        intro a ha
        rcases List.mem_append.1 ha with ha | ha
        · exact hA a ha
        · rw [List.mem_singleton.1 ha]
          exact slice_verbatim args aS i
    · exact hJ j hj
  · split at hj
    · rcases List.mem_append.1 hj with hj | hj
      · exact hJ j hj
      · rw [List.mem_singleton.1 hj]
        exact hA
    · exact hJ j hj

theorem eofStep_jobs_succ (args : List Char) (st : ScanState) :
    ∃ t, (eofStep args st).2.jobs = st.jobs ++ t := by
  obtain ⟨mode, fl, aS, idx, A, jobs, IF, OF⟩ := st
  cases mode <;> simp only [eofStep] <;>
    first
      | apply finalize_jobs_succ
      | (split_ifs <;> apply finalize_jobs_succ)

theorem eofStep_verbatim (args : List Char) (st : ScanState)
    (hA : ∀ a ∈ st.arguments, VerbatimIn a args)
    (hJ : ∀ j ∈ st.jobs, ∀ a ∈ j.args, VerbatimIn a args) :
    ∀ j ∈ (eofStep args st).2.jobs, ∀ a ∈ j.args, VerbatimIn a args := by
  obtain ⟨mode, fl, aS, idx, A, jobs, IF, OF⟩ := st
  cases mode <;> simp only [eofStep] <;>
    first
      | exact finalize_verbatim args aS idx A jobs _ _ _ hA hJ
      | (split_ifs <;> exact finalize_verbatim args aS idx A jobs _ _ _ hA hJ)

theorem scan_jobs_succ (args : List Char) :
    ∀ (rest : List Char) (st : ScanState),
      ∃ t, (scan args rest st).2.jobs = st.jobs ++ t := by
  intro rest
  induction rest with
  | nil => intro st; exact eofStep_jobs_succ args st
  | cons c r ih =>
    intro st
    have hrel := (stepChar_rel args c st).1
    simp only [scan]
    rcases hs : stepChar args c st with st' | ⟨st', e⟩ <;> rw [hs] at hrel <;>
      simp only [Step.state] at hrel <;> obtain ⟨t0, ht0⟩ := hrel
    · obtain ⟨t1, ht1⟩ := ih st'
      refine ⟨t0 ++ t1, ?_⟩
      show (scan args r st').2.jobs = _
      rw [ht1, ht0, List.append_assoc]
    · obtain ⟨t1, ht1⟩ := finalize_jobs_succ args st'.argStart st'.index st'.arguments
        st'.jobs st'.inFile st'.outFile e
      refine ⟨t0 ++ t1, ?_⟩
      show (finalize args st'.argStart st'.index st'.arguments st'.jobs
        st'.inFile st'.outFile e).2.jobs = _
      rw [ht1, ht0, List.append_assoc]

theorem scan_verbatim (args : List Char) :
    ∀ (rest : List Char) (st : ScanState),
      (∀ a ∈ st.arguments, VerbatimIn a args) →
      (∀ j ∈ st.jobs, ∀ a ∈ j.args, VerbatimIn a args) →
      ∀ j ∈ (scan args rest st).2.jobs, ∀ a ∈ j.args, VerbatimIn a args := by
  intro rest
  induction rest with
  | nil => intro st hA hJ; exact eofStep_verbatim args st hA hJ
  | cons c r ih =>
    intro st hA hJ
    have hrel := (stepChar_rel args c st).2 hA hJ
    simp only [scan]
    rcases hs : stepChar args c st with st' | ⟨st', e⟩ <;> rw [hs] at hrel <;>
      simp only [Step.state] at hrel
    · exact ih st' hrel.1 hrel.2
    · exact finalize_verbatim args st'.argStart st'.index st'.arguments st'.jobs
        st'.inFile st'.outFile e hrel.1 hrel.2

theorem splitPipeline_verbatim (cand : List Char) :
    ∀ j ∈ (splitPipeline cand).2.jobs, ∀ a ∈ j.args, VerbatimIn a cand := by
  refine scan_verbatim cand cand ScanState.init ?_ ?_
  · intro a ha
    exact absurd ha (List.not_mem_nil a)
  · intro j hj
    exact absurd hj (List.not_mem_nil j)

/-- On input whose characters are all space, tab, CR, or LF, the iterator
yields nothing: whatever `index_start` the scan ends with, the yielded
suffix would consist of such characters only, so the final check rejects
it. -/
theorem pipelineFirst_ws_none (s : List Char)
    (h : ∀ c ∈ s, c = ' ' ∨ c = '\t' ∨ c = '\r' ∨ c = '\n') :
    pipelineFirst s = none := by
  simp only [pipelineFirst]
  split
  · split
    · rename_i hany
      exfalso
      rw [List.any_eq_true] at hany
      obtain ⟨x, hx, hb⟩ := hany
      rcases h x (List.mem_of_mem_drop hx) with h1 | h1 | h1 | h1 <;> subst h1 <;>
        exact absurd hb (by decide)
    · rfl
  · rfl

/-- The first step of the splitter on a candidate that starts with `|`:
the guard of the `|` arm holds on the fresh flag register, `job_found!`
runs with empty `arguments` and `arg_start = index = 0`, pushing the job
whose sole argument is the empty slice. -/
theorem splitPipeline_pipe_first (s : List Char) :
    splitPipeline ('|' :: s) =
      scan ('|' :: s) s
        ⟨.normal, Flags.init, 1, 1, [], [Job.mk [[]] false], none, none⟩ := rfl

/--
C1: the spec states that once an error is recorded for a candidate, no
Pipeline is appended for it.  The code contradicts this: the push at the
end of `collect` (pipelines.rs line 288) runs unconditionally, so for
`"cmd >"` the error is recorded *and* a pipeline is appended.
-/
theorem claim1_counterexample :
    (collect [] none (String.toList "cmd >")).2 =
      some "missing standard output file argument after '>'" ∧
    (collect [] none (String.toList "cmd >")).1.length = 1 := by
  decide

/--
C1 (amended): even when `collect` records an error for a candidate, it still
appends exactly one Pipeline, built from the jobs gathered before the error
and without the failed redirection: every yielded candidate grows the
accumulator by one, and `"cmd >"` in particular records the missing-file
error yet appends the pipeline with the single job `["cmd"]`.
-/
theorem claim1_amended_theorem :
    (∀ (pls : List Pipeline) (err : Option String) (cmd cand : List Char),
      pipelineFirst cmd = some cand →
      ((collect pls err cmd).1).length = pls.length + 1) ∧
    collect [] none (String.toList "cmd >") =
      ([⟨[⟨[String.toList "cmd"], false⟩], none, none⟩],
        some "missing standard output file argument after '>'") := by
  constructor
  · intro pls err cmd cand h
    simp only [collect, h]
    rcases hsp : splitPipeline cand with ⟨e, p⟩
    cases e <;> simp [List.length_append]
  · decide

/--
C2: the spec states that emitted argument and redirection-filename strings
never have quote or backslash-escape characters removed, and in particular
that the backslash of `"cmd > a\ b"` is preserved in the stored Redirection
file string.  The code contradicts the filename half: the stdout filename
loop (pipelines.rs lines 183-187) drops the escaping backslash and keeps
only the escaped character, so the stored file string is `"a b"`, which
contains no backslash.
-/
theorem claim2_counterexample :
    (collect [] none (String.toList "cmd > a\\ b")).1.map Pipeline.stdout =
      [some ⟨String.toList "a b", false⟩] ∧
    Char.ofNat 92 ∉ String.toList "a b" := by
  decide

/--
C2 (amended): every job argument emitted by the splitter is a verbatim
contiguous substring of the input candidate (quotes and backslashes
intact), but redirection filename strings are escape-processed: a backslash
is dropped and the following character kept, so `"cmd > a\ b"` stores the
stdout file string `"a b"`.
-/
theorem claim2_amended_theorem :
    (∀ (cand : List Char), ∀ j ∈ (splitPipeline cand).2.jobs, ∀ a ∈ j.args,
      VerbatimIn a cand) ∧
    collect [] none (String.toList "cmd > a\\ b") =
      ([⟨[⟨[String.toList "cmd"], false⟩], none, some ⟨String.toList "a b", false⟩⟩],
        none) := by
  exact ⟨fun cand => splitPipeline_verbatim cand, by decide⟩

/--
C3: the claim (and the spec) state that end of input in input-redirection
mode with no filename captured records exactly
`"missing standard input file argument after '<'"`.  The code has the
correct message only on the `>`-after-`<` arm (pipelines.rs line 252); the
`redir_check!` macro invoked at end of input (lines 94-107, 273) hard-codes
the *output* message, so `"cmd <"` records
`"missing standard output file argument after '>'"` instead.  The claim
matches the evident intent; the macro is a copy-paste slip.
-/
theorem claim3_theorem :
    collect [] none (String.toList "cmd <") =
      ([⟨[⟨[String.toList "cmd"], false⟩], none, none⟩],
        some "missing standard output file argument after '>'") := by
  decide

/--
C4: the spec states that on entering output-redirection mode the next
character is peeked, and if it is not `>` it becomes the first filename
character, so `"cmd >file"` would store `"file"`.  The code contradicts
this: `args_iter.next()` (pipelines.rs lines 161-167) consumes the
character and discards it unless it is `>`, so `"cmd >file"` stores
`"ile"`.
-/
theorem claim4_counterexample :
    (collect [] none (String.toList "cmd >file")).1.map Pipeline.stdout =
      [some ⟨String.toList "ile", false⟩] ∧
    String.toList "ile" ≠ String.toList "file" := by
  decide

/--
C4 (amended): on entering output-redirection mode after `>`, the next
character is consumed: if it is `>` the mode becomes append (and filename
accumulation starts after it, so `"cmd >>file"` stores `"file"` with
`append = true`); otherwise the consumed character is discarded and
filename accumulation starts with the following character (so
`"cmd >file"` stores `"ile"`).
-/
theorem claim4_amended_theorem :
    collect [] none (String.toList "cmd >file") =
      ([⟨[⟨[String.toList "cmd"], false⟩], none, some ⟨String.toList "ile", false⟩⟩],
        none) ∧
    collect [] none (String.toList "cmd >>file") =
      ([⟨[⟨[String.toList "cmd"], false⟩], none, some ⟨String.toList "file", true⟩⟩],
        none) := by
  decide

/--
C5: the spec states that an unquoted `&` ends scanning of the candidate
and that no further jobs are parsed after it.  The code contradicts this:
the `&` arm (pipelines.rs line 150) runs `job_found!` and falls through to
the next iteration without breaking, so `"a & b"` parses a second job from
the text after the `&`.
-/
theorem claim5_counterexample :
    (collect [] none (String.toList "a & b")).1.map (fun p => p.jobs.length) = [2] := by
  decide

/--
C5 (amended): an unquoted, unescaped `&` finalizes the current Job with
`background = true`, but scanning continues: text after the `&` may
produce further jobs, so `"a & b"` yields the background job `["a"]`
followed by the non-background job `["b"]` in the same pipeline.
-/
theorem claim5_amended_theorem :
    collect [] none (String.toList "a & b") =
      ([⟨[⟨[String.toList "a"], true⟩, ⟨[String.toList "b"], false⟩], none, none⟩],
        none) := by
  decide

/--
C6: the claim (and the spec) state that a `>` met while accumulating an
input-redirection filename ends the filename and switches to parsing the
output redirection, so `"cmd < a>b"` would capture stdin `"a"` and stdout
`"b"`.  The code's symmetric paths do exactly that (pipelines.rs lines
200-211 for `<` while in output mode — witnessed here by `"cmd > a<b"` —
and line 232 for the already-found case), but the not-yet-found `>` arm
sets `mode = RedirMode::Stdin` (line 264) instead of `Stdout`: the scanner
re-enters input mode, the `b` is parsed as a new stdin filename candidate
and then discarded because `in_file` is already set, and no stdout
Redirection is produced.  The claim matches the evident intent; line 264
is a slip.
-/
theorem claim6_theorem :
    collect [] none (String.toList "cmd < a>b") =
      ([⟨[⟨[String.toList "cmd"], false⟩], some ⟨String.toList "a", false⟩, none⟩],
        none) ∧
    collect [] none (String.toList "cmd > a<b") =
      ([⟨[⟨[String.toList "cmd"], false⟩], some ⟨String.toList "b", false⟩,
        some ⟨String.toList "a", false⟩⟩], none) := by
  decide

/--
C7: the spec states that after a bare `$` (not followed by `(`) the
substitution flag clears with no side effect, so a space right after it
still separates tokens and `"echo $ foo"` yields `["echo", "$", "foo"]`.
The code contradicts this: while `PROCESS_ONE` is set, the space fails the
`flags & IS_VALID == 0` guard (pipelines.rs line 141) and falls through to
the flag-clearing default arm (line 153), so the space is consumed as
ordinary argument content and the arguments are `["echo", "$ foo"]`.
-/
theorem claim7_counterexample :
    (collect [] none (String.toList "echo $ foo")).1.map (fun p => p.jobs.map Job.args) =
      [[[String.toList "echo", String.toList "$ foo"]]] ∧
    [String.toList "echo", String.toList "$ foo"] ≠
      [String.toList "echo", String.toList "$", String.toList "foo"] := by
  decide

/--
C7 (amended): after an unquoted, unescaped `$` that is not followed by
`(`, the substitution flag clears on the *next* character, but that
character is consumed as ordinary argument content even when it is a space
or tab: the space immediately after the `$` is not a token separator, so
`"echo $ foo"` yields the single job with arguments `["echo", "$ foo"]`.
-/
theorem claim7_amended_theorem :
    collect [] none (String.toList "echo $ foo") =
      ([⟨[⟨[String.toList "echo", String.toList "$ foo"], false⟩], none, none⟩],
        none) := by
  decide

/--
C8: the candidate `"cat | echo hello | cat < stuff > other"` produces
exactly one Pipeline with three Jobs `["cat"]`, `["echo","hello"]`,
`["cat"]`, a stdin Redirection with file `"stuff"`, and a stdout
Redirection with file `"other"` and `append = false`.
-/
theorem claim8_theorem :
    collect [] none (String.toList "cat | echo hello | cat < stuff > other") =
      ([⟨[⟨[String.toList "cat"], false⟩,
          ⟨[String.toList "echo", String.toList "hello"], false⟩,
          ⟨[String.toList "cat"], false⟩],
        some ⟨String.toList "stuff", false⟩,
        some ⟨String.toList "other", false⟩⟩], none) := by
  decide

/--
C9: for every input composed solely of space, tab, carriage-return and
newline characters (including the empty string), `collect` appends zero
Pipelines to the accumulator and records no error: the accumulator and the
error slot are returned unchanged.
-/
theorem claim9_theorem (s : List Char)
    (h : ∀ c ∈ s, c = ' ' ∨ c = '\t' ∨ c = '\r' ∨ c = '\n')
    (pls : List Pipeline) (err : Option String) :
    collect pls err s = (pls, err) := by
  have h0 := pipelineFirst_ws_none s h
  simp only [collect, h0]

/-- Witness for C9 at the concrete all-whitespace input `" \t\r\n"`. -/
theorem claim9_witness :
    collect [] none (String.toList " \t\r\n") = ([], none) :=
  claim9_theorem (String.toList " \t\r\n") (by decide) [] none

/--
C10: for every trimmed candidate whose first character is `|` (necessarily
unquoted and unescaped at position 0), the splitter pushes a leading Job
whose argument list is exactly the one-element list containing the empty
string, before parsing the remainder; `"|foo"` in particular yields that
job followed by the job `["foo"]`.
-/
theorem claim10_theorem :
    (∀ (s : List Char), ∃ t,
      (splitPipeline ('|' :: s)).2.jobs = Job.mk [[]] false :: t) ∧
    splitPipeline (String.toList "|foo") =
      (none, ⟨[⟨[[]], false⟩, ⟨[String.toList "foo"], false⟩], none, none⟩) := by
  constructor
  · intro s
    rw [splitPipeline_pipe_first]
    obtain ⟨t, ht⟩ := scan_jobs_succ ('|' :: s) s
      ⟨.normal, Flags.init, 1, 1, [], [Job.mk [[]] false], none, none⟩
    exact ⟨t, ht⟩
  · decide

end IonShell
